import Mathlib

/-!
# Verification of the roguelike floor core (`gamemap.py`, `model.py`)

A shallow embedding of the repository's floor core: the `Camera` coordinate
transform, the `GameMap` state (terrain, visibility grids, actors, items),
its queries (`is_blocked`, `fighter_at`), the visibility recompute
(`update_fov`), the renderer (`render`), the location accessor
(`__getitem__`), and the top-level game loop (`Model.loop`).

Conventions of the embedding:
* Python ints are `Int`; array shapes and screen sizes are `Nat`.
* NumPy grids indexed `[y, x]` become total functions `Int → Int → _`
  (row argument first), with the meaningful region `[0,height) × [0,width)`.
* The Python `set` of actors is modelled as a `List` in the set's iteration
  order (CPython iterates a fixed, unmutated set in a fixed order).
* The external FOV algorithm (`tcod.map.compute_fov`) is an opaque
  parameter: every theorem about `update_fov` holds for an arbitrary
  FOV function, hence in particular for the real one.
* The Python dict of items is modelled as an association list in insertion
  (= iteration) order.
-/

namespace Rogue

/-- A `tile_graphic` record: glyph code `ch` (int32), foreground and
background RGB triples (bytes). -/
structure TileGraphic where
  ch : Int
  fg : Nat × Nat × Nat
  bg : Nat × Nat × Nat
deriving DecidableEq, Repr

/-- A `tile_dt` record: `move_cost` (uint8, 0 = impassable), `transparent`,
and the lit/remembered graphics. -/
structure Tile where
  move_cost : Nat
  transparent : Bool
  light : TileGraphic
  dark : TileGraphic
deriving DecidableEq, Repr

/-- `GameMap.DARKNESS`: the sentinel graphic `(0, (0,0,0), (0,0,0))`. -/
def DARKNESS : TileGraphic := ⟨0, (0, 0, 0), (0, 0, 0)⟩

/-- A Python slice `start:stop` (both bounds explicit in the source:
`top : top + height`). -/
structure Slice where
  start : Int
  stop : Int
deriving DecidableEq, Repr

/-- The extent `stop − start` of a slice. -/
def Slice.width (s : Slice) : Int := s.stop - s.start

/-- Membership of an index in the slice's half-open range. -/
def Slice.mem (s : Slice) (i : Int) : Prop := s.start ≤ i ∧ i < s.stop

instance (s : Slice) (i : Int) : Decidable (s.mem i) := by
  unfold Slice.mem; infer_instance

/-- `Camera`: the camera center position `(x, y)`. -/
structure Camera where
  x : Int
  y : Int
deriving DecidableEq, Repr

/-- `Camera.get_left_top_pos`: the world coordinate of the screen's
top-left cell, `(x − screenWidth // 2, y − screenHeight // 2)`.
Screen sizes are natural numbers, so Lean's `Nat` division matches
Python's floor division here. -/
def Camera.get_left_top_pos (c : Camera) (screen_shape : Nat × Nat) :
    Int × Int :=
  (c.x - (screen_shape.1 / 2 : Nat), c.y - (screen_shape.2 / 2 : Nat))

/-- The pair of 2D slices `(screen_view, world_view)` returned by
`Camera.get_views`: each is `(row_slice, col_slice)` as in
`np.s_[top : top + height, left : left + width]`. -/
structure Views where
  screen_row : Slice
  screen_col : Slice
  world_row : Slice
  world_col : Slice
deriving DecidableEq, Repr

/-- `Camera.get_views`, transcribed from the source: clip the camera
window against the world bounds and return matching screen/world slices. -/
def Camera.get_views (c : Camera) (world_shape screen_shape : Nat × Nat) :
    Views :=
  let camera_left := (c.get_left_top_pos screen_shape).1
  let camera_top := (c.get_left_top_pos screen_shape).2
  let screen_left := max 0 (-camera_left)
  let screen_top := max 0 (-camera_top)
  let world_left := max 0 camera_left
  let world_top := max 0 camera_top
  let screen_width :=
    min ((screen_shape.1 : Int) - screen_left) ((world_shape.1 : Int) - world_left)
  let screen_height :=
    min ((screen_shape.2 : Int) - screen_top) ((world_shape.2 : Int) - world_top)
  { screen_row := ⟨screen_top, screen_top + screen_height⟩
    screen_col := ⟨screen_left, screen_left + screen_width⟩
    world_row := ⟨world_top, world_top + screen_height⟩
    world_col := ⟨world_left, world_left + screen_width⟩ }

/-- An external `Graphic` (renderable capability of a fighter or item):
a glyph `char`, an RGB `color`, and the priority its class comparison
orders by (`min(graphics)` in the source picks the least element). -/
structure Graphic where
  char : Int
  color : Nat × Nat × Nat
  priority : Nat
deriving DecidableEq, Repr

/-- An external `Actor` as seen by this core: a current world position
`xy = (x, y)` (actors held in a map's actor set always have one) and
a `fighter` renderable. -/
structure Actor where
  xy : Int × Int
  fighter : Graphic
deriving DecidableEq, Repr

/-- The `GameMap` state: shape, terrain grid, the two visibility grids,
the live actor set (in iteration order), the item mapping (in iteration
order), the camera center, and the player's current location (`none`
when the anchor entity is absent from the map). Grids are total
functions indexed row-first (`tiles y x` embeds `tiles[y, x]`). -/
structure GameMap where
  width : Nat
  height : Nat
  tiles : Int → Int → Tile
  explored : Int → Int → Bool
  visible : Int → Int → Bool
  actors : List Actor
  items : List ((Int × Int) × List Graphic)
  camera_xy : Int × Int
  playerLoc : Option (Int × Int)

/-- `GameMap.__init__`: zeroed tile grid, all-false visibility grids,
no actors or items, camera at the origin. The player anchor starts
absent (the attribute is unset until a generator assigns it). -/
def GameMap.init (width height : Nat) : GameMap where
  width := width
  height := height
  tiles := fun _ _ => ⟨0, false, DARKNESS, DARKNESS⟩
  explored := fun _ _ => false
  visible := fun _ _ => false
  actors := []
  items := []
  camera_xy := (0, 0)
  playerLoc := none

/-- The `GameMap.camera` property. -/
def GameMap.camera (g : GameMap) : Camera := ⟨g.camera_xy.1, g.camera_xy.2⟩

/-- `GameMap.is_blocked`, transcribed from the source: out-of-bounds,
zero `move_cost`, or an occupying actor each yield `true`. The bounds
test shields the tile lookup exactly as in the source. -/
def GameMap.is_blocked (g : GameMap) (x y : Int) : Bool :=
  if ¬ (0 ≤ x ∧ x < (g.width : Int) ∧ 0 ≤ y ∧ y < (g.height : Int)) then
    true
  else if (g.tiles y x).move_cost = 0 then
    true
  else if g.actors.any (fun actor => actor.xy = (x, y)) then
    true
  else
    false

/-- `GameMap.fighter_at`: iterate the actor set in order and return the
first actor whose position matches, else `none`. -/
def GameMap.fighter_at (g : GameMap) (x y : Int) : Option Actor :=
  g.actors.find? (fun actor => actor.xy = (x, y))

/-- The type of the external FOV algorithm (`tcod.map.compute_fov` with
`radius=10`, `light_walls=True`, `FOV_RESTRICTIVE`): from a transparency
grid and a pov `(i, j) = (y, x)` it produces a fresh visible grid. -/
def FovFn : Type := (Int → Int → Bool) → Int × Int → Int → Int → Bool

/-- `GameMap.update_fov`: a silent no-op when the player has no location;
otherwise overwrite `visible` with the FOV result anchored at the
player's `(y, x)` and fold it into `explored` with `|=`. -/
def GameMap.update_fov (fov : FovFn) (g : GameMap) : GameMap :=
  match g.playerLoc with
  | none => g
  | some loc =>
      let newVisible := fov (fun y x => (g.tiles y x).transparent) (loc.2, loc.1)
      { g with
        visible := newVisible
        explored := fun y x => g.explored y x || newVisible y x }

/-- A sequence of visibility recomputes with arbitrary external activity
between them: each step first lets the outside world move or remove the
anchor entity (the new `playerLoc`), then calls `update_fov` with some
FOV result. -/
def GameMap.run_updates (steps : List (Option (Int × Int) × FovFn))
    (g : GameMap) : GameMap :=
  steps.foldl (fun s p => GameMap.update_fov p.2 { s with playerLoc := p.1 }) g

/-- `MapLocation`: the lightweight handle `(map, x, y)` built by the
location accessor. -/
structure MapLocation where
  map : GameMap
  x : Int
  y : Int

/-- `GameMap.__getitem__`: `grid[x, y]` builds `MapLocation(self, x, y)`
with no bounds check and no mutation. -/
def GameMap.getItem (g : GameMap) (key : Int × Int) : MapLocation :=
  ⟨g, key.1, key.2⟩

/-- The caller-owned console frame buffer: a `width × height` grid of
`{ch, fg, bg}` cells, indexed `tiles_rgb[row, col]` (here `tiles y x`). -/
structure Console where
  width : Nat
  height : Nat
  tiles : Int → Int → TileGraphic

/-- The terrain pass of `GameMap.render`: inside the screen view, each
cell takes the lit graphic when the matching world cell is visible, the
remembered (dark) graphic when merely explored, and `DARKNESS`
otherwise; cells outside the screen view keep the console's previous
contents. -/
def GameMap.terrainPass (g : GameMap) (console : Console) : Console :=
  let v := g.camera.get_views (g.width, g.height) (console.width, console.height)
  { console with
    tiles := fun sy sx =>
      if v.screen_row.mem sy ∧ v.screen_col.mem sx then
        let wy := v.world_row.start + (sy - v.screen_row.start)
        let wx := v.world_col.start + (sx - v.screen_col.start)
        if g.visible wy wx then (g.tiles wy wx).light
        else if g.explored wy wx then (g.tiles wy wx).dark
        else DARKNESS
      else console.tiles sy sx }

/-- The screen-bounds test `0 <= obj_x < console.width and
0 <= obj_y < console.height` applied to a transformed position. -/
def Console.inBounds (console : Console) (obj : Int × Int) : Prop :=
  0 ≤ obj.1 ∧ obj.1 < (console.width : Int) ∧
    0 ≤ obj.2 ∧ obj.2 < (console.height : Int)

instance (console : Console) (obj : Int × Int) :
    Decidable (console.inBounds obj) := by
  unfold Console.inBounds; infer_instance

/-- The actor-collection filter of `GameMap.render`: the actors whose
camera-transformed position is the screen cell `(sy, sx)`, kept only
when that position is within screen bounds and their world cell is
currently visible. -/
def GameMap.actorsAt (g : GameMap) (console : Console) (sy sx : Int) :
    List Actor :=
  let cam := g.camera.get_left_top_pos (console.width, console.height)
  g.actors.filter (fun obj =>
    let obj_x := obj.xy.1 - cam.1
    let obj_y := obj.xy.2 - cam.2
    decide (console.inBounds (obj_x, obj_y)) &&
    g.visible obj.xy.2 obj.xy.1 &&
    decide ((obj_y, obj_x) = (sy, sx)))

/-- The item-collection filter of `GameMap.render`: the item entries
whose camera-transformed position is the screen cell `(sy, sx)`, kept
under the same bounds-and-visibility test as actors. -/
def GameMap.itemEntriesAt (g : GameMap) (console : Console) (sy sx : Int) :
    List ((Int × Int) × List Graphic) :=
  let cam := g.camera.get_left_top_pos (console.width, console.height)
  g.items.filter (fun e =>
    let obj_x := e.1.1 - cam.1
    let obj_y := e.1.2 - cam.2
    decide (console.inBounds (obj_x, obj_y)) &&
    g.visible e.1.2 e.1.1 &&
    decide ((obj_y, obj_x) = (sy, sx)))

/-- The `visible_objs` list for one screen cell: actor fighters appended
first (actor iteration order), then the surviving item lists extended,
as the defaultdict accumulates them in the source. -/
def GameMap.glyphsAt (g : GameMap) (console : Console) (sy sx : Int) :
    List Graphic :=
  (g.actorsAt console sy sx).map Actor.fighter ++
    (g.itemEntriesAt console sy sx).flatMap Prod.snd

/-- Python's `min` over a nonempty list of graphics under the renderable
comparison: the earliest element of least priority. -/
def minGraphic (first : Graphic) (rest : List Graphic) : Graphic :=
  rest.foldl (fun best x => if x.priority < best.priority then x else best) first

/-- `GameMap.render`: the terrain pass, then for each screen cell that
collected entity glyphs, overwrite that cell's `ch` and `fg` channels
with the minimal glyph, keeping the terrain pass's `bg`. -/
def GameMap.render (g : GameMap) (console : Console) : Console :=
  let t := g.terrainPass console
  { t with
    tiles := fun sy sx =>
      match g.glyphsAt console sy sx with
      | [] => t.tiles sy sx
      | gr :: rest =>
          let m := minGraphic gr rest
          { t.tiles sy sx with ch := m.char, fg := m.color } }

/-- An external `Fighter` capability: just the health value the loop
predicate reads. -/
structure Fighter where
  hp : Int
deriving DecidableEq, Repr

/-- The `Model` state as the loop observes it: the player's optional
fighter capability, plus an opaque component `env` standing for
everything else the external collaborators may mutate. -/
structure ModelSt where
  playerFighter : Option Fighter
  env : Nat
deriving DecidableEq, Repr

/-- `Model.is_player_dead`: `not self.player.fighter or
self.player.fighter.hp <= 0`. -/
def ModelSt.is_player_dead (m : ModelSt) : Bool :=
  match m.playerFighter with
  | none => true
  | some f => decide (f.hp ≤ 0)

/-- Observable events of one pass through the loop body: the terminal
predicate being evaluated (with its value), the external terminal-state
handler returning, and one scheduler invocation. -/
inductive Event where
  | check (dead : Bool)
  | gameOverHandled
  | invoked
deriving DecidableEq, Repr

/-- `Model.loop`, unrolled for `n` iterations of the `while True` body:
each iteration evaluates `is_player_dead`; when true it runs the
external game-over handler and `continue`s, when false it performs one
scheduler invocation. The handler and scheduler are opaque external
state transformers. -/
def loopTrace (handler sched : ModelSt → ModelSt) :
    Nat → ModelSt → List Event
  | 0, _ => []
  | n + 1, m =>
      if m.is_player_dead then
        Event.check true :: Event.gameOverHandled ::
          loopTrace handler sched n (handler m)
      else
        Event.check false :: Event.invoked ::
          loopTrace handler sched n (sched m)

/-- Well-formed loop traces: iterations concatenate, each one either a
`check false` followed by exactly one scheduler invocation and nothing
else, or a `check true` followed by the game-over handler — so every
scheduler invocation is immediately preceded by a false check, and
after the handler returns the next event can only be a fresh check. -/
inductive TraceOK : List Event → Prop
  | nil : TraceOK []
  | invoke {evs : List Event} : TraceOK evs →
      TraceOK (Event.check false :: Event.invoked :: evs)
  | gameOver {evs : List Event} : TraceOK evs →
      TraceOK (Event.check true :: Event.gameOverHandled :: evs)

/-! ## Concrete sample states

Small closed instances used to evaluate the development on explicit
inputs. -/

/-- An FOV function that lights everything (a legal value of the opaque
algorithm parameter). -/
def fovAll : FovFn := fun _ _ _ _ => true

/-- A fighter glyph of least render priority. -/
def graphicA : Graphic := ⟨64, (255, 255, 255), 0⟩

/-- A second fighter glyph of larger render priority. -/
def graphicB : Graphic := ⟨103, (0, 255, 0), 1⟩

/-- An actor standing at world cell `(1, 1)`. -/
def actorA : Actor := ⟨(1, 1), graphicA⟩

/-- A second actor also standing at `(1, 1)`: the at-most-one-actor
invariant is deliberately violated. -/
def actorB : Actor := ⟨(1, 1), graphicB⟩

/-- An actor at `(2, 2)`, a cell that is explored but not visible in
`sampleMap`. -/
def actorC : Actor := ⟨(2, 2), ⟨116, (255, 255, 0), 2⟩⟩

/-- A concrete 3×3 floor: fully passable and transparent terrain, the
whole map explored, only the quadrant `[0,2)×[0,2)` visible, three
actors, player at `(1, 1)`, camera centered on `(1, 1)`. -/
def sampleMap : GameMap :=
  { GameMap.init 3 3 with
    tiles := fun _ _ =>
      ⟨1, true, ⟨46, (255, 255, 255), (0, 0, 0)⟩,
       ⟨46, (128, 128, 128), (0, 0, 0)⟩⟩
    visible := fun y x => decide (0 ≤ y ∧ y < 2 ∧ 0 ≤ x ∧ x < 2)
    explored := fun y x => decide (0 ≤ y ∧ y < 3 ∧ 0 ≤ x ∧ x < 3)
    actors := [actorA, actorB, actorC]
    playerLoc := some (1, 1)
    camera_xy := (1, 1) }

/-- A 3×3 console frame buffer initially filled with darkness. -/
def sampleConsole : Console := ⟨3, 3, fun _ _ => DARKNESS⟩

/-! ## Theorems -/

/-- C1 (counterexample): the claim "the shared width and height are both
non-negative for every camera center, world size and screen size" is
false: with camera center `(2, 2)`, a `1×1` world and a `1×1` screen,
`get_views` returns rectangles of width `−1`. -/
theorem C1_width_nonneg_cex :
    ¬ (0 ≤ ((Camera.mk 2 2).get_views (1, 1) (1, 1)).screen_col.width) := by
  decide

/-- C1 (amended): `get_views` always returns a screen rectangle and a
world rectangle of identical width and identical height; the shared
width and height are moreover non-negative whenever the camera center
lies within the world bounds (for extreme off-world camera centers they
can be negative, denoting an empty overlap). -/
theorem C1_overlap_extents (c : Camera) (world screen : Nat × Nat) :
    ((c.get_views world screen).screen_col.width =
        (c.get_views world screen).world_col.width) ∧
    ((c.get_views world screen).screen_row.width =
        (c.get_views world screen).world_row.width) ∧
    (0 ≤ c.x → c.x < (world.1 : Int) → 0 ≤ c.y → c.y < (world.2 : Int) →
      0 ≤ (c.get_views world screen).screen_col.width ∧
      0 ≤ (c.get_views world screen).screen_row.width) := by
  unfold Camera.get_views Camera.get_left_top_pos Slice.width
  dsimp only
  refine ⟨by omega, by omega, fun hx0 hxw hy0 hyh => ⟨?_, ?_⟩⟩ <;> omega

/-- C1 (witness): the amended theorem instantiated at the spec's own
scenario — world `5×5`, screen `10×10`, camera centered at `(2, 2)`. -/
theorem C1_overlap_extents_witness :
    0 ≤ ((Camera.mk 2 2).get_views (5, 5) (10, 10)).screen_col.width ∧
    0 ≤ ((Camera.mk 2 2).get_views (5, 5) (10, 10)).screen_row.width :=
  (C1_overlap_extents (Camera.mk 2 2) (5, 5) (10, 10)).2.2
    (by decide) (by decide) (by decide) (by decide)

/-- C4: when the anchor entity has no valid position, `update_fov`
returns without touching the state: both grids (indeed the whole map)
are exactly as before. -/
theorem C4_update_fov_noop (fov : FovFn) (g : GameMap)
    (h : g.playerLoc = none) : g.update_fov fov = g := by
  unfold GameMap.update_fov
  rw [h]

/-- C4 (witness): `update_fov` on the freshly constructed map, whose
player anchor is absent, is the identity. -/
theorem C4_update_fov_noop_witness :
    (GameMap.init 3 3).update_fov fovAll = GameMap.init 3 3 :=
  C4_update_fov_noop fovAll (GameMap.init 3 3) rfl

/-- C5: `is_blocked x y` is true exactly when `(x, y)` is outside
`[0, width) × [0, height)`, or the cell's `move_cost` is `0`, or some
live actor occupies `(x, y)` — and false otherwise. The function is
total, so out-of-bounds input never fails. -/
theorem C5_is_blocked_iff (g : GameMap) (x y : Int) :
    g.is_blocked x y = true ↔
      (x < 0 ∨ (g.width : Int) ≤ x ∨ y < 0 ∨ (g.height : Int) ≤ y) ∨
      (g.tiles y x).move_cost = 0 ∨
      ∃ a ∈ g.actors, a.xy = (x, y) := by
  unfold GameMap.is_blocked
  by_cases h1 : 0 ≤ x ∧ x < (g.width : Int) ∧ 0 ≤ y ∧ y < (g.height : Int)
  · rw [if_neg (not_not_intro h1)]
    by_cases h2 : (g.tiles y x).move_cost = 0
    · rw [if_pos h2]
      simp only [true_iff]
      exact Or.inr (Or.inl h2)
    · rw [if_neg h2]
      by_cases h3 : g.actors.any (fun actor => actor.xy = (x, y)) = true
      · rw [if_pos h3]
        simp only [true_iff]
        refine Or.inr (Or.inr ?_)
        simpa using h3
      · rw [if_neg h3]
        simp only [Bool.false_eq_true, false_iff]
        rintro (hb | hm | ⟨a, ha, hxy⟩)
        · omega
        · exact h2 hm
        · refine h3 ?_
          simp only [List.any_eq_true, decide_eq_true_eq]
          exact ⟨a, ha, hxy⟩
  · rw [if_pos h1]
    simp only [true_iff]
    exact Or.inl (by omega)

/-- C10: for every integer pair — in or out of bounds — `grid[x, y]`
succeeds, performs no bounds check, and returns a handle whose `map` is
the grid itself and whose stored coordinates are the arguments exactly;
the accessor is pure, so the grid is unchanged. -/
theorem C10_getitem_handle (g : GameMap) (x y : Int) :
    (g.getItem (x, y)).map = g ∧ (g.getItem (x, y)).x = x ∧
      (g.getItem (x, y)).y = y :=
  ⟨rfl, rfl, rfl⟩

/-- Helper: one `update_fov` call never clears an explored cell. -/
theorem update_fov_explored_mono (fov : FovFn) (g : GameMap) (y x : Int)
    (h : g.explored y x = true) : (g.update_fov fov).explored y x = true := by
  unfold GameMap.update_fov
  cases hp : g.playerLoc with
  | none => exact h
  | some loc => simp [h]

/-- Helper: one `update_fov` call preserves `visible ⇒ explored`. -/
theorem update_fov_preserves_vis_sub (fov : FovFn) (g : GameMap)
    (h : ∀ y x : Int, g.visible y x = true → g.explored y x = true) :
    ∀ y x : Int, (g.update_fov fov).visible y x = true →
      (g.update_fov fov).explored y x = true := by
  intro y x
  unfold GameMap.update_fov
  cases g.playerLoc with
  | none => exact h y x
  | some loc =>
      dsimp only
      intro hv
      simp [hv]

/-- C2: across any sequence of recompute calls (with arbitrary external
player movement between them), the explored grid is monotonically
non-decreasing: a cell explored before the sequence is still explored
after it. -/
theorem C2_explored_monotone (steps : List (Option (Int × Int) × FovFn))
    (g : GameMap) (y x : Int) (h : g.explored y x = true) :
    (GameMap.run_updates steps g).explored y x = true := by
  induction steps generalizing g with
  | nil => exact h
  | cons p rest ih =>
      have hstep :
          GameMap.run_updates (p :: rest) g =
            GameMap.run_updates rest
              (GameMap.update_fov p.2 { g with playerLoc := p.1 }) := rfl
      rw [hstep]
      exact ih _ (update_fov_explored_mono p.2 { g with playerLoc := p.1 } y x h)

/-- C2 (witness): a concretely explored cell of `sampleMap` survives a
concrete recompute. -/
theorem C2_explored_monotone_witness :
    (GameMap.run_updates [(some (1, 1), fovAll)] sampleMap).explored 0 0 =
      true :=
  C2_explored_monotone [(some (1, 1), fovAll)] sampleMap 0 0 (by decide)

/-- C3: after every completed recompute — formalised as: in every state
reached from a freshly constructed map by any sequence of `update_fov`
calls with arbitrary external player movement in between (the core
writes `visible` nowhere else) — every visible cell is explored. -/
theorem C3_visible_subset_explored (width height : Nat)
    (steps : List (Option (Int × Int) × FovFn)) (y x : Int)
    (h : (GameMap.run_updates steps (GameMap.init width height)).visible y x =
      true) :
    (GameMap.run_updates steps (GameMap.init width height)).explored y x =
      true := by
  suffices hgen : ∀ g : GameMap,
      (∀ j i : Int, g.visible j i = true → g.explored j i = true) →
      ∀ j i : Int,
        (GameMap.run_updates steps g).visible j i = true →
        (GameMap.run_updates steps g).explored j i = true by
    exact hgen (GameMap.init width height) (fun _ _ hv => by cases hv) y x h
  clear h
  induction steps with
  | nil => exact fun g hg => hg
  | cons p rest ih =>
      intro g hg
      have hstep :
          GameMap.run_updates (p :: rest) g =
            GameMap.run_updates rest
              (GameMap.update_fov p.2 { g with playerLoc := p.1 }) := rfl
      rw [hstep]
      exact ih _ (update_fov_preserves_vis_sub p.2 { g with playerLoc := p.1 }
        (fun j i hv => hg j i hv))

/-- C3 (witness): after one concrete recompute on a fresh `3×3` map, a
concretely visible cell is explored. -/
theorem C3_visible_subset_explored_witness :
    (GameMap.run_updates [(some (1, 1), fovAll)]
        (GameMap.init 3 3)).explored 0 0 = true :=
  C3_visible_subset_explored 3 3 [(some (1, 1), fovAll)] 0 0 rfl

/-- C6: an entity whose world cell is not currently visible (in
particular one merely explored) is never collected for drawing, at any
screen cell; everything that is collected — actor or item entry — has a
currently visible world cell and a transformed position within screen
bounds; and a screen cell that collected no glyphs keeps exactly the
terrain pass's output, so only the terrain's remembered graphic shows
there. -/
theorem C6_entities_require_visibility (g : GameMap) (console : Console)
    (sy sx : Int) :
    (∀ a ∈ g.actors, g.visible a.xy.2 a.xy.1 = false →
        a ∉ g.actorsAt console sy sx) ∧
    (∀ a ∈ g.actorsAt console sy sx,
        a ∈ g.actors ∧ g.visible a.xy.2 a.xy.1 = true ∧
        console.inBounds
          (a.xy.1 - (g.camera.get_left_top_pos (console.width, console.height)).1,
           a.xy.2 - (g.camera.get_left_top_pos (console.width, console.height)).2)) ∧
    (∀ e ∈ g.itemEntriesAt console sy sx,
        e ∈ g.items ∧ g.visible e.1.2 e.1.1 = true ∧
        console.inBounds
          (e.1.1 - (g.camera.get_left_top_pos (console.width, console.height)).1,
           e.1.2 - (g.camera.get_left_top_pos (console.width, console.height)).2)) ∧
    (g.glyphsAt console sy sx = [] →
        (g.render console).tiles sy sx = (g.terrainPass console).tiles sy sx) := by
  refine ⟨?_, ?_, ?_, ?_⟩
  · intro a _ hv hmem
    unfold GameMap.actorsAt at hmem
    simp only [List.mem_filter, Bool.and_eq_true, decide_eq_true_eq] at hmem
    rw [hv] at hmem
    exact Bool.false_ne_true hmem.2.1.2
  · intro a ha
    unfold GameMap.actorsAt at ha
    simp only [List.mem_filter, Bool.and_eq_true, decide_eq_true_eq] at ha
    exact ⟨ha.1, ha.2.1.2, ha.2.1.1⟩
  · intro e he
    unfold GameMap.itemEntriesAt at he
    simp only [List.mem_filter, Bool.and_eq_true, decide_eq_true_eq] at he
    exact ⟨he.1, he.2.1.2, he.2.1.1⟩
  · intro h
    unfold GameMap.render
    dsimp only
    rw [h]

/-- C6 (witness): in the sample state, the actor standing on the
explored-but-not-visible cell `(2, 2)` is not collected at its own
screen cell. -/
theorem C6_entities_require_visibility_witness :
    actorC ∉ sampleMap.actorsAt sampleConsole 2 2 :=
  (C6_entities_require_visibility sampleMap sampleConsole 2 2).1 actorC
    (by decide) (by decide)

/-- C7: the renderer's entity pass overwrites only the glyph-code and
foreground channels: the background of every screen cell is the one the
terrain pass wrote, and at a cell that collected glyphs the `ch` and
`fg` channels carry the minimal collected glyph. -/
theorem C7_render_touches_only_ch_fg (g : GameMap) (console : Console)
    (sy sx : Int) :
    ((g.render console).tiles sy sx).bg =
        ((g.terrainPass console).tiles sy sx).bg ∧
    (∀ gr rest, g.glyphsAt console sy sx = gr :: rest →
        ((g.render console).tiles sy sx).ch = (minGraphic gr rest).char ∧
        ((g.render console).tiles sy sx).fg = (minGraphic gr rest).color) := by
  constructor
  · unfold GameMap.render
    dsimp only
    cases h : g.glyphsAt console sy sx with
    | nil => rfl
    | cons gr rest => rfl
  · intro gr rest h
    unfold GameMap.render
    dsimp only
    rw [h]
    exact ⟨rfl, rfl⟩

/-- C7 (witness): at the screen cell holding the two sample actors, the
drawn glyph is the minimal one and the channels evaluate as the theorem
states. -/
theorem C7_render_touches_only_ch_fg_witness :
    ((sampleMap.render sampleConsole).tiles 1 1).ch =
        (minGraphic graphicA [graphicB]).char ∧
    ((sampleMap.render sampleConsole).tiles 1 1).fg =
        (minGraphic graphicA [graphicB]).color :=
  (C7_render_touches_only_ch_fg sampleMap sampleConsole 1 1).2 graphicA
    [graphicB] (by decide)

/-- C8: even when two distinct actors occupy the same cell, `fighter_at`
never fails: it returns `some` actor at that cell — the first match in
the actor set's iteration order — and the result depends only on the
actor collection, so two evaluations on the same state agree. -/
theorem C8_fighter_at_deterministic (g : GameMap) (x y : Int) (a₁ a₂ : Actor)
    (h₁ : a₁ ∈ g.actors) (h₂ : a₂ ∈ g.actors) (hne : a₁ ≠ a₂)
    (p₁ : a₁.xy = (x, y)) (p₂ : a₂.xy = (x, y)) :
    ∃ a, g.fighter_at x y = some a ∧ a ∈ g.actors ∧ a.xy = (x, y) ∧
      ∀ g' : GameMap, g'.actors = g.actors →
        g'.fighter_at x y = g.fighter_at x y := by
  have hsome : (g.actors.find? (fun actor => actor.xy = (x, y))).isSome := by
    rw [List.find?_isSome]
    exact ⟨a₁, h₁, by simp [p₁]⟩
  obtain ⟨a, ha⟩ := Option.isSome_iff_exists.mp hsome
  refine ⟨a, ha, List.mem_of_find?_eq_some ha, ?_, ?_⟩
  · have hp := List.find?_some ha
    simpa using hp
  · intro g' hg
    unfold GameMap.fighter_at
    rw [hg]

/-- C8 (witness): the sample state has two distinct actors on `(1, 1)`;
`fighter_at` resolves the collision as the theorem states. -/
theorem C8_fighter_at_deterministic_witness :
    ∃ a, sampleMap.fighter_at 1 1 = some a ∧ a ∈ sampleMap.actors ∧
      a.xy = (1, 1) ∧
      ∀ g' : GameMap, g'.actors = sampleMap.actors →
        g'.fighter_at 1 1 = sampleMap.fighter_at 1 1 :=
  C8_fighter_at_deterministic sampleMap 1 1 actorA actorB (by decide)
    (by decide) (by decide) rfl rfl

/-- C9: every finite unrolling of `Model.loop` produces a well-formed
trace: each iteration first evaluates the terminal predicate (the
unrolling begins with `check (is_player_dead m)`); a false check is
followed by exactly one scheduler invocation and nothing else; a true
check is followed by the terminal-state handler, after which the next
event — if the loop continues — is necessarily a fresh check, so the
predicate is re-evaluated before any further scheduler invocation. -/
theorem C9_loop_trace_shape (handler sched : ModelSt → ModelSt) (n : Nat)
    (m : ModelSt) :
    TraceOK (loopTrace handler sched n m) ∧
    (loopTrace handler sched (n + 1) m).head? =
      some (Event.check m.is_player_dead) := by
  constructor
  · induction n generalizing m with
    | zero => exact TraceOK.nil
    | succ k ih =>
        cases hd : m.is_player_dead with
        | true =>
            have hk : loopTrace handler sched (k + 1) m =
                Event.check true :: Event.gameOverHandled ::
                  loopTrace handler sched k (handler m) := by
              simp [loopTrace, hd]
            rw [hk]
            exact TraceOK.gameOver (ih (handler m))
        | false =>
            have hk : loopTrace handler sched (k + 1) m =
                Event.check false :: Event.invoked ::
                  loopTrace handler sched k (sched m) := by
              simp [loopTrace, hd]
            rw [hk]
            exact TraceOK.invoke (ih (sched m))
  · cases hd : m.is_player_dead <;> simp [loopTrace, hd]

end Rogue
